import Mathlib

/-!
Verification of the Monte Carlo GBM simulation engine (`run_simulation` in
`backend/main.py`) against its specification.

The engine is embedded shallowly over the reals:
* the six request parameters become a structure `SimulationParams`
  (`numSteps`/`numPaths` are integers, as in the source);
* the matrix of standard-normal draws `Z` (the only stochastic input,
  `np.random.standard_normal((N, M))` in the source) becomes an explicit
  function argument `Z : ℕ → ℕ → ℝ`, so every theorem is quantified over
  all possible draws;
* numpy reductions `np.mean`, `np.median` and `np.percentile`
  (linear-interpolation flavour, the default) are embedded as `npMean`,
  `npMedian`, `npPercentile` over lists of reals;
* the fallible endpoint becomes `run_simulation : SimulationParams →
  (ℕ → ℕ → ℝ) → Except String SimulationResult`, the `HTTPException`
  branch mapping to `Except.error` with the source's message string.
-/

namespace MonteCarlo

/-- The request body (`SimulationParams` pydantic model in the source):
`initialPrice` (S0), `expectedReturn` (mu), `volatility` (sigma),
`timeHorizon` (T) are floats; `numSteps` (N) and `numPaths` (M) are ints. -/
structure SimulationParams where
  initialPrice : ℝ
  expectedReturn : ℝ
  volatility : ℝ
  timeHorizon : ℝ
  numSteps : ℤ
  numPaths : ℤ

/-- The response body (`SimulationResult` pydantic model in the source).
The four scalar statistics are always set by `run_simulation`, so they are
plain reals here rather than options. -/
structure SimulationResult where
  time_points : List ℝ
  sample_paths : List (List ℝ)
  mean_path : List ℝ
  percentile_5th_path : List ℝ
  percentile_95th_path : List ℝ
  mean_final_price : ℝ
  median_final_price : ℝ
  percentile_5th : ℝ
  percentile_95th : ℝ

/-- The validation predicate of the source:
`all([S0 > 0, T > 0, N > 0, M > 0, sigma >= 0])`. -/
def validParams (p : SimulationParams) : Prop :=
  0 < p.initialPrice ∧ 0 < p.timeHorizon ∧ 0 < p.numSteps ∧
    0 < p.numPaths ∧ 0 ≤ p.volatility

/-- `N` as a natural number (equal to `numSteps` on valid inputs). -/
def Nn (p : SimulationParams) : ℕ := p.numSteps.toNat

/-- `M` as a natural number (equal to `numPaths` on valid inputs). -/
def Mn (p : SimulationParams) : ℕ := p.numPaths.toNat

/-- `dt = T / N` from the source. -/
noncomputable def dt (p : SimulationParams) : ℝ :=
  p.timeHorizon / (p.numSteps : ℝ)

/-- The price grid `paths` of the source: `paths[0] = S0` and, for
`t = 1..N`, `paths[t] = paths[t-1] * exp(drift + diffusion)` with
`drift = (mu - 0.5 * sigma**2) * dt` and
`diffusion = sigma * sqrt(dt) * Z[t-1]`. `price p Z t col` is the grid
entry at time row `t` and path column `col`. -/
noncomputable def price (p : SimulationParams) (Z : ℕ → ℕ → ℝ) :
    ℕ → ℕ → ℝ
  | 0, _ => p.initialPrice
  | t + 1, col =>
      price p Z t col *
        Real.exp ((p.expectedReturn - 0.5 * p.volatility ^ 2) * dt p +
          p.volatility * Real.sqrt (dt p) * Z t col)

/-- Time row `t` of the grid, as the list of its `M` column values. -/
noncomputable def row (p : SimulationParams) (Z : ℕ → ℕ → ℝ) (t : ℕ) :
    List ℝ :=
  List.ofFn fun col : Fin (Mn p) => price p Z t col

/-- Ascending sort of a list of reals (numpy reductions sort internally). -/
noncomputable def sortR (l : List ℝ) : List ℝ :=
  l.insertionSort (· ≤ ·)

/-- `np.mean`: the sum of the entries divided by their count. -/
noncomputable def npMean (l : List ℝ) : ℝ := l.sum / l.length

/-- `np.median`: middle entry of the sorted data for odd length, mean of
the two middle entries for even length. -/
noncomputable def npMedian (l : List ℝ) : ℝ :=
  if l.length % 2 = 1 then (sortR l).getD (l.length / 2) 0
  else ((sortR l).getD (l.length / 2 - 1) 0 + (sortR l).getD (l.length / 2) 0) / 2

/-- `np.percentile` with the default linear interpolation between order
statistics: with sorted data `s` of length `n` and rank
`h = q/100 * (n - 1)`, the result is
`s[⌊h⌋] + (h - ⌊h⌋) * (s[⌊h⌋ + 1] - s[⌊h⌋])`. -/
noncomputable def npPercentile (l : List ℝ) (q : ℝ) : ℝ :=
  let s := sortR l
  let h : ℝ := q / 100 * ((l.length : ℝ) - 1)
  let i : ℕ := ⌊h⌋₊
  s.getD i 0 + (h - (i : ℝ)) * (s.getD (i + 1) 0 - s.getD i 0)

/-- `np.linspace(0, T, N + 1)`: `N + 1` evenly spaced points with step
`T / N`; the final entry is set to the endpoint `T` exactly. -/
noncomputable def timePoints (p : SimulationParams) : List ℝ :=
  List.ofFn fun i : Fin (Nn p + 1) =>
    if (i : ℕ) = Nn p then p.timeHorizon
    else (i : ℝ) * (p.timeHorizon / (Nn p : ℝ))

/-- The result record built after validation succeeds: statistics of the
final row, per-timestep statistics of every row, the time axis, and the
transposed grid (`paths.T.tolist()`, each inner list one path). -/
noncomputable def buildResult (p : SimulationParams) (Z : ℕ → ℕ → ℝ) :
    SimulationResult where
  time_points := timePoints p
  sample_paths :=
    List.ofFn fun i : Fin (Mn p) =>
      List.ofFn fun t : Fin (Nn p + 1) => price p Z t i
  mean_path := List.ofFn fun t : Fin (Nn p + 1) => npMean (row p Z t)
  percentile_5th_path :=
    List.ofFn fun t : Fin (Nn p + 1) => npPercentile (row p Z t) 5
  percentile_95th_path :=
    List.ofFn fun t : Fin (Nn p + 1) => npPercentile (row p Z t) 95
  mean_final_price := npMean (row p Z (Nn p))
  median_final_price := npMedian (row p Z (Nn p))
  percentile_5th := npPercentile (row p Z (Nn p)) 5
  percentile_95th := npPercentile (row p Z (Nn p)) 95

/-- The error message raised by the source on invalid parameters. -/
def invalidMsg : String :=
  "Invalid simulation parameters. Ensure values are positive and sigma >= 0."

open Classical in
/-- The endpoint `run_simulation`: validate first (raising
`HTTPException(400, ...)`, embedded as `Except.error`), then simulate and
aggregate. No partial result escapes the error branch. -/
noncomputable def run_simulation (p : SimulationParams) (Z : ℕ → ℕ → ℝ) :
    Except String SimulationResult :=
  if validParams p then Except.ok (buildResult p Z)
  else Except.error invalidMsg

/-! ### Helper lemmas -/

lemma sortR_sorted (l : List ℝ) : List.Sorted (· ≤ ·) (sortR l) :=
  List.sorted_insertionSort _ l

lemma sortR_perm (l : List ℝ) : (sortR l).Perm l :=
  List.perm_insertionSort _ l

lemma length_sortR (l : List ℝ) : (sortR l).length = l.length :=
  (sortR_perm l).length_eq

lemma getD_le_getD_of_sorted {s : List ℝ} (hs : List.Sorted (· ≤ ·) s)
    {i j : ℕ} (hij : i ≤ j) (hj : j < s.length) :
    s.getD i 0 ≤ s.getD j 0 := by
  rcases hij.lt_or_eq with hlt | rfl
  · rw [List.getD_eq_getElem s 0 (hlt.trans hj), List.getD_eq_getElem s 0 hj]
    exact hs.rel_get_of_lt (a := ⟨i, hlt.trans hj⟩) (b := ⟨j, hj⟩) hlt
  · exact le_rfl

lemma getD_eq_of_const {l : List ℝ} {c : ℝ} (hc : ∀ x ∈ l, x = c)
    {i : ℕ} (hi : i < l.length) : l.getD i 0 = c := by
  rw [List.getD_eq_getElem l 0 hi]
  exact hc _ (List.getElem_mem hi)

lemma sortR_const {l : List ℝ} {c : ℝ} (hc : ∀ x ∈ l, x = c) :
    ∀ x ∈ sortR l, x = c := fun x hx => hc x ((sortR_perm l).subset hx)

lemma npMean_const {l : List ℝ} {c : ℝ} (hl : l ≠ []) (hc : ∀ x ∈ l, x = c) :
    npMean l = c := by
  have hn : (l.length : ℝ) ≠ 0 := by
    exact_mod_cast (List.length_pos.mpr hl).ne'
  rw [npMean, List.sum_eq_card_nsmul l c hc, nsmul_eq_mul, mul_comm,
    mul_div_assoc, div_self hn, mul_one]

lemma npMedian_const {l : List ℝ} {c : ℝ} (hl : l ≠ []) (hc : ∀ x ∈ l, x = c) :
    npMedian l = c := by
  have hpos : 0 < l.length := List.length_pos.mpr hl
  have hhalf : l.length / 2 < (sortR l).length := by
    rw [length_sortR]; omega
  have h1 : (sortR l).getD (l.length / 2) 0 = c :=
    getD_eq_of_const (sortR_const hc) hhalf
  have h2 : (sortR l).getD (l.length / 2 - 1) 0 = c :=
    getD_eq_of_const (sortR_const hc) (by omega)
  rw [npMedian]
  split
  · exact h1
  · rw [h1, h2]; ring

lemma floor_rank_le {n : ℕ} (hn : 0 < n) {q : ℝ} (h100 : q ≤ 100) :
    q / 100 * ((n : ℝ) - 1) ≤ (n : ℝ) - 1 := by
  have hn1 : (0 : ℝ) ≤ (n : ℝ) - 1 := by
    have : (1 : ℝ) ≤ (n : ℝ) := by exact_mod_cast hn
    linarith
  nlinarith [div_le_one_of_le₀ h100 (by norm_num : (0 : ℝ) ≤ 100)]

lemma floor_rank_lt {n : ℕ} (hn : 0 < n) {h : ℝ} (hle : h ≤ (n : ℝ) - 1) :
    ⌊h⌋₊ < n := by
  have hcast : ((n - 1 : ℕ) : ℝ) = (n : ℝ) - 1 := by
    push_cast [Nat.cast_sub hn]; ring
  have : ⌊h⌋₊ ≤ n - 1 := by
    calc ⌊h⌋₊ ≤ ⌊((n - 1 : ℕ) : ℝ)⌋₊ := Nat.floor_mono (by rw [hcast]; exact hle)
      _ = n - 1 := Nat.floor_natCast _
  omega

lemma frac_eq_zero_of_top {n : ℕ} (hn : 0 < n) {h : ℝ} (h0 : 0 ≤ h)
    (hle : h ≤ (n : ℝ) - 1) (htop : n ≤ ⌊h⌋₊ + 1) :
    h - (⌊h⌋₊ : ℝ) = 0 := by
  have hlt : ⌊h⌋₊ < n := floor_rank_lt hn hle
  have heq : ⌊h⌋₊ = n - 1 := by omega
  have hcast : ((⌊h⌋₊ : ℕ) : ℝ) = (n : ℝ) - 1 := by
    rw [heq]; push_cast [Nat.cast_sub hn]; ring
  have hge : ((⌊h⌋₊ : ℕ) : ℝ) ≤ h := Nat.floor_le h0
  linarith [hcast ▸ hge, hcast ▸ hle]

lemma interp_mono {s : List ℝ} (hsort : List.Sorted (· ≤ ·) s)
    {h1 h2 : ℝ} (h01 : 0 ≤ h1) (h12 : h1 ≤ h2)
    (h2top : h2 ≤ (s.length : ℝ) - 1) :
    s.getD ⌊h1⌋₊ 0 +
        (h1 - (⌊h1⌋₊ : ℝ)) * (s.getD (⌊h1⌋₊ + 1) 0 - s.getD ⌊h1⌋₊ 0) ≤
      s.getD ⌊h2⌋₊ 0 +
        (h2 - (⌊h2⌋₊ : ℝ)) * (s.getD (⌊h2⌋₊ + 1) 0 - s.getD ⌊h2⌋₊ 0) := by
  have h02 : 0 ≤ h2 := le_trans h01 h12
  have hn : 0 < s.length := by
    rcases Nat.eq_zero_or_pos s.length with h0 | h
    · rw [h0] at h2top; norm_num at h2top; linarith
    · exact h
  have hi12 : ⌊h1⌋₊ ≤ ⌊h2⌋₊ := Nat.floor_mono h12
  have hi2lt : ⌊h2⌋₊ < s.length := floor_rank_lt hn h2top
  have hf1lb : ((⌊h1⌋₊ : ℕ) : ℝ) ≤ h1 := Nat.floor_le h01
  have hf1ub : h1 < (⌊h1⌋₊ : ℝ) + 1 := Nat.lt_floor_add_one h1
  have hf2lb : ((⌊h2⌋₊ : ℕ) : ℝ) ≤ h2 := Nat.floor_le h02
  rcases eq_or_lt_of_le hi12 with heq | hlt
  · rw [← heq]
    by_cases hnext : ⌊h1⌋₊ + 1 < s.length
    · have hD : 0 ≤ s.getD (⌊h1⌋₊ + 1) 0 - s.getD ⌊h1⌋₊ 0 :=
        sub_nonneg.mpr (getD_le_getD_of_sorted hsort (Nat.le_succ _) hnext)
      nlinarith [mul_le_mul_of_nonneg_right
        (show h1 - (⌊h1⌋₊ : ℝ) ≤ h2 - (⌊h1⌋₊ : ℝ) by linarith) hD]
    · have h1top : h1 ≤ (s.length : ℝ) - 1 := le_trans h12 h2top
      have hi1lt : ⌊h1⌋₊ < s.length := lt_of_le_of_lt hi12 hi2lt
      have hz1 : h1 - (⌊h1⌋₊ : ℝ) = 0 :=
        frac_eq_zero_of_top hn h01 h1top (by omega)
      have hz2 : h2 - (⌊h1⌋₊ : ℝ) = 0 := by
        have := frac_eq_zero_of_top hn h02 h2top (by omega)
        rw [← heq] at this; exact this
      rw [hz1, hz2]
  · have hnext1 : ⌊h1⌋₊ + 1 < s.length := by omega
    have hD1 : 0 ≤ s.getD (⌊h1⌋₊ + 1) 0 - s.getD ⌊h1⌋₊ 0 :=
      sub_nonneg.mpr (getD_le_getD_of_sorted hsort (Nat.le_succ _) hnext1)
    have hA : s.getD ⌊h1⌋₊ 0 +
        (h1 - (⌊h1⌋₊ : ℝ)) * (s.getD (⌊h1⌋₊ + 1) 0 - s.getD ⌊h1⌋₊ 0) ≤
        s.getD (⌊h1⌋₊ + 1) 0 := by
      nlinarith [mul_nonneg
        (show (0 : ℝ) ≤ 1 - (h1 - (⌊h1⌋₊ : ℝ)) by linarith) hD1]
    have hB : s.getD (⌊h1⌋₊ + 1) 0 ≤ s.getD ⌊h2⌋₊ 0 :=
      getD_le_getD_of_sorted hsort hlt hi2lt
    have hC : s.getD ⌊h2⌋₊ 0 ≤ s.getD ⌊h2⌋₊ 0 +
        (h2 - (⌊h2⌋₊ : ℝ)) * (s.getD (⌊h2⌋₊ + 1) 0 - s.getD ⌊h2⌋₊ 0) := by
      by_cases hnext2 : ⌊h2⌋₊ + 1 < s.length
      · have hD2 : 0 ≤ s.getD (⌊h2⌋₊ + 1) 0 - s.getD ⌊h2⌋₊ 0 :=
          sub_nonneg.mpr (getD_le_getD_of_sorted hsort (Nat.le_succ _) hnext2)
        nlinarith [mul_nonneg (show (0 : ℝ) ≤ h2 - (⌊h2⌋₊ : ℝ) by linarith) hD2]
      · have hz2 : h2 - (⌊h2⌋₊ : ℝ) = 0 :=
          frac_eq_zero_of_top hn h02 h2top (by omega)
        rw [hz2, zero_mul, add_zero]
    linarith

lemma npPercentile_mono {l : List ℝ} (hl : l ≠ []) {q1 q2 : ℝ}
    (h0 : 0 ≤ q1) (h12 : q1 ≤ q2) (h100 : q2 ≤ 100) :
    npPercentile l q1 ≤ npPercentile l q2 := by
  have hn : 0 < l.length := List.length_pos.mpr hl
  have hn1 : (0 : ℝ) ≤ (l.length : ℝ) - 1 := by
    have : (1 : ℝ) ≤ (l.length : ℝ) := by exact_mod_cast hn
    linarith
  simp only [npPercentile]
  apply interp_mono (sortR_sorted l)
  · exact mul_nonneg (div_nonneg h0 (by norm_num)) hn1
  · exact mul_le_mul_of_nonneg_right (by linarith) hn1
  · rw [length_sortR]; exact floor_rank_le hn h100

lemma npPercentile_const {l : List ℝ} {c : ℝ} (hl : l ≠ [])
    (hc : ∀ x ∈ l, x = c) {q : ℝ} (h0 : 0 ≤ q) (h100 : q ≤ 100) :
    npPercentile l q = c := by
  have hn : 0 < l.length := List.length_pos.mpr hl
  have hn1 : (0 : ℝ) ≤ (l.length : ℝ) - 1 := by
    have : (1 : ℝ) ≤ (l.length : ℝ) := by exact_mod_cast hn
    linarith
  have hh0 : 0 ≤ q / 100 * ((l.length : ℝ) - 1) :=
    mul_nonneg (div_nonneg h0 (by norm_num)) hn1
  have hhle : q / 100 * ((l.length : ℝ) - 1) ≤ (l.length : ℝ) - 1 :=
    floor_rank_le hn h100
  have hilt : ⌊q / 100 * ((l.length : ℝ) - 1)⌋₊ < l.length :=
    floor_rank_lt hn hhle
  have hi : (sortR l).getD ⌊q / 100 * ((l.length : ℝ) - 1)⌋₊ 0 = c :=
    getD_eq_of_const (sortR_const hc) (by rw [length_sortR]; exact hilt)
  simp only [npPercentile]
  rw [hi]
  by_cases hnext : ⌊q / 100 * ((l.length : ℝ) - 1)⌋₊ + 1 < l.length
  · rw [getD_eq_of_const (sortR_const hc)
      (by rw [length_sortR]; exact hnext)]
    ring
  · rw [frac_eq_zero_of_top hn hh0 hhle (by omega)]
    ring

lemma getD_ofFn {α : Type} {n : ℕ} (f : Fin n → α) (d : α) {i : ℕ}
    (hi : i < n) : (List.ofFn f).getD i d = f ⟨i, hi⟩ := by
  rw [List.getD_eq_getElem _ _ (by simpa using hi), List.getElem_ofFn]

lemma Nn_pos {p : SimulationParams} (h : validParams p) : 0 < Nn p := by
  have := h.2.2.1; unfold Nn; omega

lemma Mn_pos {p : SimulationParams} (h : validParams p) : 0 < Mn p := by
  have := h.2.2.2.1; unfold Mn; omega

lemma Nn_cast {p : SimulationParams} (h : validParams p) :
    ((Nn p : ℕ) : ℝ) = (p.numSteps : ℝ) := by
  unfold Nn
  have h0 : ((p.numSteps.toNat : ℤ) : ℝ) = ((p.numSteps : ℤ) : ℝ) := by
    rw [Int.toNat_of_nonneg (le_of_lt h.2.2.1)]
  exact_mod_cast h0

lemma dt_eq {p : SimulationParams} (h : validParams p) :
    dt p = p.timeHorizon / (Nn p : ℝ) := by
  rw [dt, Nn_cast h]

lemma dt_pos {p : SimulationParams} (h : validParams p) : 0 < dt p := by
  rw [dt_eq h]
  exact div_pos h.2.1 (by exact_mod_cast Nn_pos h)

lemma length_row (p : SimulationParams) (Z : ℕ → ℕ → ℝ) (t : ℕ) :
    (row p Z t).length = Mn p := by
  rw [row, List.length_ofFn]

lemma row_ne_nil {p : SimulationParams} (h : validParams p)
    (Z : ℕ → ℕ → ℝ) (t : ℕ) : row p Z t ≠ [] := by
  have := Mn_pos h
  intro hnil
  rw [← List.length_eq_zero, length_row] at hnil
  omega

lemma row_getD (p : SimulationParams) (Z : ℕ → ℕ → ℝ) (t : ℕ) {i : ℕ}
    (hi : i < Mn p) : (row p Z t).getD i 0 = price p Z t i := by
  rw [row, getD_ofFn _ _ hi]

lemma row_zero_const (p : SimulationParams) (Z : ℕ → ℕ → ℝ) :
    ∀ x ∈ row p Z 0, x = p.initialPrice := by
  intro x hx
  rw [row, List.mem_ofFn] at hx
  obtain ⟨i, hi⟩ := hx
  rw [← hi]
  simp [price]

lemma price_pos {p : SimulationParams} (Z : ℕ → ℕ → ℝ)
    (hS0 : 0 < p.initialPrice) (t col : ℕ) : 0 < price p Z t col := by
  induction t with
  | zero => rw [price]; exact hS0
  | succ t ih => rw [price]; exact mul_pos ih (Real.exp_pos _)

lemma price_sigma_zero {p : SimulationParams} (Z : ℕ → ℕ → ℝ)
    (hs : p.volatility = 0) (t col : ℕ) :
    price p Z t col =
      p.initialPrice * Real.exp (p.expectedReturn * ((t : ℕ) * dt p)) := by
  induction t with
  | zero => rw [price]; norm_num
  | succ t ih =>
      rw [price, ih, hs, mul_assoc, ← Real.exp_add]
      congr 1
      congr 1
      push_cast
      ring

lemma timePoints_getD {p : SimulationParams} (hN : 0 < Nn p) {t : ℕ}
    (ht : t ≤ Nn p) :
    (timePoints p).getD t 0 = (t : ℝ) * (p.timeHorizon / (Nn p : ℝ)) := by
  rw [timePoints, getD_ofFn _ _ (Nat.lt_succ_of_le ht)]
  by_cases h : t = Nn p
  · have hne : ((Nn p : ℕ) : ℝ) ≠ 0 := by exact_mod_cast hN.ne'
    simp only [h, if_pos rfl]
    field_simp
  · simp only [if_neg h]

lemma sample_paths_getD {p : SimulationParams} {Z : ℕ → ℕ → ℝ} {i t : ℕ}
    (hi : i < Mn p) (ht : t < Nn p + 1) :
    ((buildResult p Z).sample_paths.getD i []).getD t 0 = price p Z t i := by
  simp only [buildResult]
  rw [getD_ofFn _ _ hi, getD_ofFn _ _ ht]

lemma mean_path_getD {p : SimulationParams} {Z : ℕ → ℕ → ℝ} {t : ℕ}
    (ht : t < Nn p + 1) :
    (buildResult p Z).mean_path.getD t 0 = npMean (row p Z t) := by
  simp only [buildResult]
  rw [getD_ofFn _ _ ht]

lemma p5_path_getD {p : SimulationParams} {Z : ℕ → ℕ → ℝ} {t : ℕ}
    (ht : t < Nn p + 1) :
    (buildResult p Z).percentile_5th_path.getD t 0 =
      npPercentile (row p Z t) 5 := by
  simp only [buildResult]
  rw [getD_ofFn _ _ ht]

lemma p95_path_getD {p : SimulationParams} {Z : ℕ → ℕ → ℝ} {t : ℕ}
    (ht : t < Nn p + 1) :
    (buildResult p Z).percentile_95th_path.getD t 0 =
      npPercentile (row p Z t) 95 := by
  simp only [buildResult]
  rw [getD_ofFn _ _ ht]

/-- A concrete valid parameter set (the spec's §8 scenario). -/
noncomputable def demoParams : SimulationParams :=
  ⟨100, 1 / 20, 1 / 5, 1, 252, 1000⟩

/-- A concrete invalid parameter set (negative initial price). -/
noncomputable def badParams : SimulationParams :=
  ⟨-1, 1 / 20, 1 / 5, 1, 252, 1000⟩

/-- A concrete draw matrix (all draws zero). -/
def zeroDraws : ℕ → ℕ → ℝ := fun _ _ => 0

lemma demoParams_valid : validParams demoParams := by
  norm_num [validParams, demoParams]

lemma badParams_invalid : ¬ validParams badParams := by
  norm_num [validParams, badParams]

lemma Nn_demo : Nn demoParams = 252 := rfl

lemma Mn_demo : Mn demoParams = 1000 := rfl

/-! ### The claims -/

/-- C1: `run_simulation` rejects exactly those inputs with
`initialPrice ≤ 0`, `timeHorizon ≤ 0`, `numSteps ≤ 0`, `numPaths ≤ 0` or
`volatility < 0`, signalling the `InvalidParameters` error with its
human-readable message and producing no result; on every input meeting
all five constraints no error is raised and the full result is
returned. -/
theorem C1_validation (p : SimulationParams) (Z : ℕ → ℕ → ℝ) :
    (¬ validParams p → run_simulation p Z = Except.error invalidMsg) ∧
    (validParams p → run_simulation p Z = Except.ok (buildResult p Z)) := by
  constructor
  · intro h
    rw [run_simulation, if_neg h]
  · intro h
    rw [run_simulation, if_pos h]

/-- Witness for C1: a concrete valid input succeeds and a concrete
invalid input (negative initial price) yields the error. -/
theorem C1_validation_witness :
    run_simulation demoParams zeroDraws =
        Except.ok (buildResult demoParams zeroDraws) ∧
      run_simulation badParams zeroDraws = Except.error invalidMsg :=
  ⟨(C1_validation demoParams zeroDraws).2 demoParams_valid,
    (C1_validation badParams zeroDraws).1 badParams_invalid⟩

/-- C2: on every valid input and for all draws `Z` (the only stochastic
input), each returned path starts at `S0` and follows the exact GBM
per-step update
`price[t+1, col] = price[t, col] · exp((mu − sigma²/2)·dt + sigma·√dt·Z[t, col])`
with `dt = T/N`. -/
theorem C2_gbm_step (p : SimulationParams) (Z : ℕ → ℕ → ℝ)
    (h : validParams p) :
    (∀ i, i < Mn p →
      ((buildResult p Z).sample_paths.getD i []).getD 0 0 =
        p.initialPrice) ∧
    (∀ i, i < Mn p → ∀ t, t < Nn p →
      ((buildResult p Z).sample_paths.getD i []).getD (t + 1) 0 =
        ((buildResult p Z).sample_paths.getD i []).getD t 0 *
          Real.exp ((p.expectedReturn - 0.5 * p.volatility ^ 2) * dt p +
            p.volatility * Real.sqrt (dt p) * Z t i)) := by
  refine ⟨fun i hi => ?_, fun i hi t ht => ?_⟩
  · rw [sample_paths_getD hi (Nat.succ_pos _), price]
  · rw [sample_paths_getD hi (by omega), sample_paths_getD hi (by omega),
      price]

/-- Witness for C2 at the §8 scenario parameters, path 0, step 0. -/
theorem C2_gbm_step_witness :
    ((buildResult demoParams zeroDraws).sample_paths.getD 0 []).getD 0 0 =
        demoParams.initialPrice ∧
      ((buildResult demoParams zeroDraws).sample_paths.getD 0 []).getD 1 0 =
        ((buildResult demoParams zeroDraws).sample_paths.getD 0 []).getD 0 0 *
          Real.exp ((demoParams.expectedReturn -
              0.5 * demoParams.volatility ^ 2) * dt demoParams +
            demoParams.volatility * Real.sqrt (dt demoParams) *
              zeroDraws 0 0) :=
  ⟨(C2_gbm_step demoParams zeroDraws demoParams_valid).1 0 (by decide),
    (C2_gbm_step demoParams zeroDraws demoParams_valid).2 0 (by decide)
      0 (by decide)⟩

/-- C3: on every valid input the returned time axis has `N + 1` entries,
starts at `0`, ends at `T`, and consecutive entries differ by the
constant positive spacing `T / N`. -/
theorem C3_time_points (p : SimulationParams) (Z : ℕ → ℕ → ℝ)
    (h : validParams p) :
    (buildResult p Z).time_points.length = Nn p + 1 ∧
    (buildResult p Z).time_points.getD 0 0 = 0 ∧
    (buildResult p Z).time_points.getD (Nn p) 0 = p.timeHorizon ∧
    (∀ i, i < Nn p →
      (buildResult p Z).time_points.getD (i + 1) 0 -
          (buildResult p Z).time_points.getD i 0 =
        p.timeHorizon / (p.numSteps : ℝ)) ∧
    0 < p.timeHorizon / (p.numSteps : ℝ) := by
  have hN := Nn_pos h
  have hNr : (0 : ℝ) < (p.numSteps : ℝ) := by exact_mod_cast h.2.2.1
  have htp : (buildResult p Z).time_points = timePoints p := rfl
  refine ⟨?_, ?_, ?_, fun i hi => ?_, div_pos h.2.1 hNr⟩
  · rw [htp, timePoints, List.length_ofFn]
  · rw [htp, timePoints_getD hN (Nat.zero_le _)]
    norm_num
  · rw [htp, timePoints_getD hN le_rfl]
    have hne : ((Nn p : ℕ) : ℝ) ≠ 0 := by exact_mod_cast hN.ne'
    field_simp
  · rw [htp, timePoints_getD hN (by omega), timePoints_getD hN (by omega),
      ← Nn_cast h]
    push_cast
    ring

/-- Witness for C3 at the §8 scenario parameters, spacing at index 0. -/
theorem C3_time_points_witness :
    (buildResult demoParams zeroDraws).time_points.length = 253 ∧
      (buildResult demoParams zeroDraws).time_points.getD 0 0 = 0 ∧
      (buildResult demoParams zeroDraws).time_points.getD 1 0 -
          (buildResult demoParams zeroDraws).time_points.getD 0 0 =
        demoParams.timeHorizon / (demoParams.numSteps : ℝ) :=
  ⟨(C3_time_points demoParams zeroDraws demoParams_valid).1,
    (C3_time_points demoParams zeroDraws demoParams_valid).2.1,
    (C3_time_points demoParams zeroDraws demoParams_valid).2.2.2.1 0
      (by decide)⟩

/-- C4: on every valid input, every path starts at exactly `S0`, and the
mean, 5th-percentile and 95th-percentile series all equal `S0` at time
index 0. -/
theorem C4_initial_collapse (p : SimulationParams) (Z : ℕ → ℕ → ℝ)
    (h : validParams p) :
    (∀ i, i < Mn p →
      ((buildResult p Z).sample_paths.getD i []).getD 0 0 =
        p.initialPrice) ∧
    (buildResult p Z).mean_path.getD 0 0 = p.initialPrice ∧
    (buildResult p Z).percentile_5th_path.getD 0 0 = p.initialPrice ∧
    (buildResult p Z).percentile_95th_path.getD 0 0 = p.initialPrice := by
  have hne := row_ne_nil h Z 0
  have hc := row_zero_const p Z
  refine ⟨fun i hi => ?_, ?_, ?_, ?_⟩
  · rw [sample_paths_getD hi (Nat.succ_pos _), price]
  · rw [mean_path_getD (Nat.succ_pos _), npMean_const hne hc]
  · rw [p5_path_getD (Nat.succ_pos _),
      npPercentile_const hne hc (by norm_num) (by norm_num)]
  · rw [p95_path_getD (Nat.succ_pos _),
      npPercentile_const hne hc (by norm_num) (by norm_num)]

/-- Witness for C4 at the §8 scenario parameters, path 0. -/
theorem C4_initial_collapse_witness :
    ((buildResult demoParams zeroDraws).sample_paths.getD 0 []).getD 0 0 =
        demoParams.initialPrice ∧
      (buildResult demoParams zeroDraws).mean_path.getD 0 0 =
        demoParams.initialPrice ∧
      (buildResult demoParams zeroDraws).percentile_5th_path.getD 0 0 =
        demoParams.initialPrice ∧
      (buildResult demoParams zeroDraws).percentile_95th_path.getD 0 0 =
        demoParams.initialPrice :=
  ⟨(C4_initial_collapse demoParams zeroDraws demoParams_valid).1 0
      (by decide),
    (C4_initial_collapse demoParams zeroDraws demoParams_valid).2.1,
    (C4_initial_collapse demoParams zeroDraws demoParams_valid).2.2.1,
    (C4_initial_collapse demoParams zeroDraws demoParams_valid).2.2.2⟩

/-- A concrete valid parameter set with zero volatility. -/
noncomputable def flatParams : SimulationParams :=
  ⟨100, 1 / 20, 0, 1, 252, 1000⟩

lemma flatParams_valid : validParams flatParams := by
  norm_num [validParams, flatParams]

/-- C5: on every valid input with `sigma = 0`, every path equals the
deterministic drift curve `S0·exp(mu·t)` at each returned time point,
and the mean and both percentile series coincide with that curve. -/
theorem C5_sigma_zero (p : SimulationParams) (Z : ℕ → ℕ → ℝ)
    (h : validParams p) (hs : p.volatility = 0) :
    ∀ t, t ≤ Nn p →
      (∀ i, i < Mn p →
        ((buildResult p Z).sample_paths.getD i []).getD t 0 =
          p.initialPrice * Real.exp (p.expectedReturn *
            (buildResult p Z).time_points.getD t 0)) ∧
      (buildResult p Z).mean_path.getD t 0 =
        p.initialPrice * Real.exp (p.expectedReturn *
          (buildResult p Z).time_points.getD t 0) ∧
      (buildResult p Z).percentile_5th_path.getD t 0 =
        p.initialPrice * Real.exp (p.expectedReturn *
          (buildResult p Z).time_points.getD t 0) ∧
      (buildResult p Z).percentile_95th_path.getD t 0 =
        p.initialPrice * Real.exp (p.expectedReturn *
          (buildResult p Z).time_points.getD t 0) := by
  intro t ht
  have hN := Nn_pos h
  have htp : (buildResult p Z).time_points = timePoints p := rfl
  have htpv : (timePoints p).getD t 0 = (t : ℝ) * dt p := by
    rw [timePoints_getD hN ht, dt_eq h]
  have hc : ∀ x ∈ row p Z t, x =
      p.initialPrice * Real.exp (p.expectedReturn * ((t : ℝ) * dt p)) := by
    intro x hx
    rw [row, List.mem_ofFn] at hx
    obtain ⟨i, hi⟩ := hx
    rw [← hi]
    exact price_sigma_zero Z hs t i
  have hne := row_ne_nil h Z t
  refine ⟨fun i hi => ?_, ?_, ?_, ?_⟩
  · rw [sample_paths_getD hi (by omega), htp, htpv]
    exact price_sigma_zero Z hs t i
  · rw [mean_path_getD (by omega), htp, htpv]
    exact npMean_const hne hc
  · rw [p5_path_getD (by omega), htp, htpv]
    exact npPercentile_const hne hc (by norm_num) (by norm_num)
  · rw [p95_path_getD (by omega), htp, htpv]
    exact npPercentile_const hne hc (by norm_num) (by norm_num)

/-- Witness for C5 at the zero-volatility parameters, time index 1. -/
theorem C5_sigma_zero_witness :
    ((buildResult flatParams zeroDraws).sample_paths.getD 0 []).getD 1 0 =
        flatParams.initialPrice * Real.exp (flatParams.expectedReturn *
          (buildResult flatParams zeroDraws).time_points.getD 1 0) ∧
      (buildResult flatParams zeroDraws).mean_path.getD 1 0 =
        flatParams.initialPrice * Real.exp (flatParams.expectedReturn *
          (buildResult flatParams zeroDraws).time_points.getD 1 0) :=
  ⟨(C5_sigma_zero flatParams zeroDraws flatParams_valid rfl 1
      (by decide)).1 0 (by decide),
    (C5_sigma_zero flatParams zeroDraws flatParams_valid rfl 1
      (by decide)).2.1⟩

/-- C6: on every valid input and at every time index, the 5th-percentile
series never exceeds the 95th-percentile series; this follows from
monotonicity of the interpolated sample percentile in the rank alone. -/
theorem C6_percentile_order (p : SimulationParams) (Z : ℕ → ℕ → ℝ)
    (h : validParams p) :
    ∀ t, t ≤ Nn p →
      (buildResult p Z).percentile_5th_path.getD t 0 ≤
        (buildResult p Z).percentile_95th_path.getD t 0 := by
  intro t ht
  rw [p5_path_getD (by omega), p95_path_getD (by omega)]
  exact npPercentile_mono (row_ne_nil h Z t) (by norm_num) (by norm_num)
    (by norm_num)

/-- Witness for C6 at the §8 scenario parameters, final time index. -/
theorem C6_percentile_order_witness :
    (buildResult demoParams zeroDraws).percentile_5th_path.getD 252 0 ≤
      (buildResult demoParams zeroDraws).percentile_95th_path.getD 252 0 :=
  C6_percentile_order demoParams zeroDraws demoParams_valid 252 (by decide)

/-- C7: on every valid input, `sample_paths` is the whole ensemble with
no capping: exactly `M` inner lists, each of length `N + 1`, and entry
`[i][t]` equals the grid entry at time row `t`, path column `i`
(path-major transpose of the row-major grid). -/
theorem C7_transpose (p : SimulationParams) (Z : ℕ → ℕ → ℝ)
    (h : validParams p) :
    (buildResult p Z).sample_paths.length = Mn p ∧
    (∀ i, i < Mn p →
      ((buildResult p Z).sample_paths.getD i []).length = Nn p + 1) ∧
    (∀ i, i < Mn p → ∀ t, t < Nn p + 1 →
      ((buildResult p Z).sample_paths.getD i []).getD t 0 =
        (row p Z t).getD i 0) := by
  have hsp : (buildResult p Z).sample_paths =
      List.ofFn fun i : Fin (Mn p) =>
        List.ofFn fun t : Fin (Nn p + 1) => price p Z ↑t ↑i := rfl
  refine ⟨?_, fun i hi => ?_, fun i hi t ht => ?_⟩
  · rw [hsp, List.length_ofFn]
  · rw [hsp, getD_ofFn _ _ hi]
    exact List.length_ofFn _
  · rw [sample_paths_getD hi ht, row_getD p Z t hi]

/-- Witness for C7 at the §8 scenario parameters, path 0, time 0. -/
theorem C7_transpose_witness :
    (buildResult demoParams zeroDraws).sample_paths.length = 1000 ∧
      ((buildResult demoParams zeroDraws).sample_paths.getD 0 []).length =
        253 ∧
      ((buildResult demoParams zeroDraws).sample_paths.getD 0 []).getD 0 0 =
        (row demoParams zeroDraws 0).getD 0 0 :=
  ⟨(C7_transpose demoParams zeroDraws demoParams_valid).1,
    (C7_transpose demoParams zeroDraws demoParams_valid).2.1 0 (by decide),
    (C7_transpose demoParams zeroDraws demoParams_valid).2.2 0 (by decide)
      0 (by decide)⟩

/-- C8: on every valid input, the four scalar final-price statistics are
the mean, median and linearly interpolated 5th/95th sample percentiles of
exactly the `M` entries of the final (time `T`) grid row. -/
theorem C8_final_stats (p : SimulationParams) (Z : ℕ → ℕ → ℝ)
    (h : validParams p) :
    ((buildResult p Z).mean_final_price = npMean (row p Z (Nn p)) ∧
      (buildResult p Z).median_final_price = npMedian (row p Z (Nn p)) ∧
      (buildResult p Z).percentile_5th = npPercentile (row p Z (Nn p)) 5 ∧
      (buildResult p Z).percentile_95th =
        npPercentile (row p Z (Nn p)) 95) ∧
    (row p Z (Nn p)).length = Mn p ∧
    (buildResult p Z).percentile_5th =
      (sortR (row p Z (Nn p))).getD
          ⌊(5 : ℝ) / 100 * ((Mn p : ℝ) - 1)⌋₊ 0 +
        ((5 : ℝ) / 100 * ((Mn p : ℝ) - 1) -
            (⌊(5 : ℝ) / 100 * ((Mn p : ℝ) - 1)⌋₊ : ℝ)) *
          ((sortR (row p Z (Nn p))).getD
              (⌊(5 : ℝ) / 100 * ((Mn p : ℝ) - 1)⌋₊ + 1) 0 -
            (sortR (row p Z (Nn p))).getD
              ⌊(5 : ℝ) / 100 * ((Mn p : ℝ) - 1)⌋₊ 0) := by
  refine ⟨⟨rfl, rfl, rfl, rfl⟩, length_row p Z _, ?_⟩
  show npPercentile (row p Z (Nn p)) 5 = _
  simp only [npPercentile]
  rw [length_row]

/-- Witness for C8 at the §8 scenario parameters. -/
theorem C8_final_stats_witness :
    (buildResult demoParams zeroDraws).mean_final_price =
        npMean (row demoParams zeroDraws (Nn demoParams)) ∧
      (buildResult demoParams zeroDraws).percentile_5th =
        npPercentile (row demoParams zeroDraws (Nn demoParams)) 5 ∧
      (row demoParams zeroDraws (Nn demoParams)).length = 1000 :=
  ⟨(C8_final_stats demoParams zeroDraws demoParams_valid).1.1,
    (C8_final_stats demoParams zeroDraws demoParams_valid).1.2.2.1,
    Mn_demo ▸ (C8_final_stats demoParams zeroDraws demoParams_valid).2.1⟩

/-- C9: on every valid input, every entry of every returned path is
strictly positive: each step multiplies a positive value by an
exponential. -/
theorem C9_positivity (p : SimulationParams) (Z : ℕ → ℕ → ℝ)
    (h : validParams p) :
    ∀ t, t ≤ Nn p → ∀ i, i < Mn p →
      0 < ((buildResult p Z).sample_paths.getD i []).getD t 0 := by
  intro t ht i hi
  rw [sample_paths_getD hi (by omega)]
  exact price_pos Z h.1 t i

/-- Witness for C9 at the §8 scenario parameters, final time, path 0. -/
theorem C9_positivity_witness :
    0 < ((buildResult demoParams zeroDraws).sample_paths.getD 0 []).getD
        252 0 :=
  C9_positivity demoParams zeroDraws demoParams_valid 252 (by decide) 0
    (by decide)

/-- C10: on every valid input the scalar final-price statistics agree
with the final entries of the per-timestep series: each is the same
statistic of the same final grid row. -/
theorem C10_final_consistency (p : SimulationParams) (Z : ℕ → ℕ → ℝ)
    (h : validParams p) :
    (buildResult p Z).mean_final_price =
        (buildResult p Z).mean_path.getD (Nn p) 0 ∧
      (buildResult p Z).percentile_5th =
        (buildResult p Z).percentile_5th_path.getD (Nn p) 0 ∧
      (buildResult p Z).percentile_95th =
        (buildResult p Z).percentile_95th_path.getD (Nn p) 0 := by
  refine ⟨?_, ?_, ?_⟩
  · rw [mean_path_getD (Nat.lt_succ_self _)]; exact rfl
  · rw [p5_path_getD (Nat.lt_succ_self _)]; exact rfl
  · rw [p95_path_getD (Nat.lt_succ_self _)]; exact rfl

/-- Witness for C10 at the §8 scenario parameters. -/
theorem C10_final_consistency_witness :
    (buildResult demoParams zeroDraws).mean_final_price =
        (buildResult demoParams zeroDraws).mean_path.getD
          (Nn demoParams) 0 ∧
      (buildResult demoParams zeroDraws).percentile_5th =
        (buildResult demoParams zeroDraws).percentile_5th_path.getD
          (Nn demoParams) 0 ∧
      (buildResult demoParams zeroDraws).percentile_95th =
        (buildResult demoParams zeroDraws).percentile_95th_path.getD
          (Nn demoParams) 0 :=
  C10_final_consistency demoParams zeroDraws demoParams_valid

end MonteCarlo
